import Mathlib

/-!
Verification of the `stockbook` crate's runtime `Stamp` accessor.

The source of truth is `src/src/lib.rs`.  The private modules `data`
(the `Data` / ProgMem byte-fetch handle) and `iter` (the `Pixels`
iterator) are not present under `src/`, so they are modelled from the
specification (§4.6 and §4.2 respectively); every other definition is a
direct shallow embedding of the Rust code.

Machine integers (`usize`, `u8`) are modelled as `Nat`; the byte values
stored in a `Data` are arbitrary naturals, which is conservative (every
`u8` is such a natural, and no operation below depends on an upper
bound).
-/

/-- Color of a pixel (from `enum Color` in `lib.rs`). -/
inductive Color where
  /-- Black (`rgba(0, 0, 0, 255)`). -/
  | Black : Color
  /-- White (`rgba(255, 255, 255, 255)`). -/
  | White : Color
deriving DecidableEq, Repr

/-- Modelled from the spec: the `data` module is missing from `src/`.
§4.6 describes `Data` as a ProgMem handle over an immutable byte
array exposing a single operation `fetch(offset) → byte`, which
"guarantees that the resulting byte equals the one written by the
build-time producer at that offset".  We model the handle as the
byte array it points to. -/
structure Data where
  /-- The pointed-to immutable byte array. -/
  bytes : List Nat
deriving DecidableEq, Repr

/-- Modelled from the spec: `Data::from_raw` wraps the pointer (here,
the byte array itself) without validation. -/
def Data.from_raw (bytes : List Nat) : Data := ⟨bytes⟩

/-- Modelled from the spec: the unchecked fetch `fetch(offset) → byte`
of §4.6.  In bounds it returns the byte at the offset; out of bounds
the Rust code is undefined behaviour, modelled by an arbitrary
default value `0`. -/
def Data.get_unchecked (d : Data) (i : Nat) : Nat :=
  d.bytes.getD i 0

/-- `struct Stamp` from `lib.rs`: width, height and a `Data` handle. -/
structure Stamp where
  /-- Number of pixel columns. -/
  width : Nat
  /-- Number of pixel rows. -/
  height : Nat
  /-- Handle to the bit-packed pixel bytes. -/
  data : Data
deriving DecidableEq, Repr

/-- `Stamp::size`: `[self.width, self.height]`. -/
def Stamp.size (s : Stamp) : List Nat :=
  [s.width, s.height]

/-- `Stamp::pixel_count`: `self.width * self.height`. -/
def Stamp.pixel_count (s : Stamp) : Nat :=
  s.width * s.height

/-- `Stamp::is_within_bounds`: `x < self.width && y < self.height`. -/
def Stamp.is_within_bounds (s : Stamp) (x y : Nat) : Bool :=
  x < s.width && y < s.height

/-- `Stamp::get_color_unchecked`:
`idx = y * width + x`, fetch byte `idx / 8`, mask `0b10000000 >> (idx % 8)`,
White iff the masked bit is nonzero. -/
def Stamp.get_color_unchecked (s : Stamp) (x y : Nat) : Color :=
  let idx := y * s.width + x
  let byte := s.data.get_unchecked (idx / 8)
  let mask := 0b10000000 >>> (idx % 8)
  if byte &&& mask ≠ 0 then
    Color.White
  else
    Color.Black

/-- `Stamp::get_color_checked`: `None` when out of bounds, otherwise
`Some` of the unchecked lookup. -/
def Stamp.get_color_checked (s : Stamp) (x y : Nat) : Option Color :=
  if !(s.is_within_bounds x y) then
    none
  else
    some (s.get_color_unchecked x y)

/-- Rust's `Option::expect(msg)`: the value on `Some`, a panic carrying
exactly `msg` on `None`.  Panics are modelled as `Except.error`. -/
def optionExpect {α : Type} (o : Option α) (msg : String) : Except String α :=
  match o with
  | some a => Except.ok a
  | none => Except.error msg

/-- `Stamp::get_color`: `self.get_color_checked(x, y).expect("")`. -/
def Stamp.get_color (s : Stamp) (x y : Nat) : Except String Color :=
  optionExpect (s.get_color_checked x y) ""

/-- `Stamp::from_raw`: stores the arguments verbatim (the `data`
pointer is wrapped by `Data::from_raw`). -/
def Stamp.from_raw (width height : Nat) (data : List Nat) : Stamp :=
  { width := width, height := height, data := Data.from_raw data }

/-- Modelled from the spec: the `iter` module is missing from `src/`.
§4.2 / §2: the pixel iterator is a borrowed `Stamp` plus a single
monotonic cursor index in `[0, width*height]`. -/
structure Pixels where
  /-- The borrowed stamp. -/
  stamp : Stamp
  /-- The cursor, a linear pixel index. -/
  cursor : Nat

/-- `Stamp::pixels` / `Pixels::new`: a fresh iterator with cursor 0. -/
def Stamp.pixels (s : Stamp) : Pixels :=
  { stamp := s, cursor := 0 }

/-- Modelled from the spec (§4.2): "On advance: if exhausted, produce
nothing; else decode `(x, y) = (i mod width, i / width)`, call
`get_color_unchecked`, increment cursor."  Returns the produced item
and the advanced iterator. -/
def Pixels.next (p : Pixels) : Option (Nat × Nat × Color) × Pixels :=
  if p.cursor < p.stamp.pixel_count then
    let x := p.cursor % p.stamp.width
    let y := p.cursor / p.stamp.width
    (some (x, y, p.stamp.get_color_unchecked x y),
      { stamp := p.stamp, cursor := p.cursor + 1 })
  else
    (none, p)

/-- The item produced by the `k`-th call to `next` (0-indexed),
starting from iterator state `p`. -/
def Pixels.nth (p : Pixels) : Nat → Option (Nat × Nat × Color)
  | 0 => p.next.1
  | k + 1 => p.next.2.nth k

/-- The spec's requirement that a panic "message identifies the
operation", read as the weakest necessary condition any such reading
implies: the message is not empty. -/
def identifiesOperation (msg : String) : Prop := msg ≠ ""

-- A concrete 3×3 checkerboard stamp, used by witnesses
-- (bytes `[0b10101010, 0b10000000]`, scenario S2 of the spec).

/-- The 3×3 checkerboard stamp of spec scenario S2. -/
def checker : Stamp :=
  Stamp.from_raw 3 3 [0b10101010, 0b10000000]

/-- The same 3×3 checkerboard, but with the 7 trailing padding bits of
the last byte set to one instead of zero (spec scenario S6). -/
def checkerPadded : Stamp :=
  Stamp.from_raw 3 3 [0b10101010, 0b11111111]

/-- A 0×5 stamp with an empty backing array. -/
def zeroWidth : Stamp :=
  Stamp.from_raw 0 5 []

example : checker.get_color_checked 0 0 = some Color.White := by decide
example : checker.get_color_checked 1 0 = some Color.Black := by decide
example : checker.get_color_checked 2 2 = some Color.White := by decide
example : checker.get_color_checked 3 0 = none := by decide

/-! ## Helper lemmas -/

/-- The mask `0b10000000 >> r` singles out bit `7 - r` of a byte. -/
theorem mask_bit_iff (b r : Nat) (hr : r < 8) :
    (b &&& (128 >>> r) ≠ 0) ↔ b.testBit (7 - r) := by
  have hmask : (128 >>> r) = 2 ^ (7 - r) := by
    interval_cases r <;> rfl
  rw [hmask, Nat.and_two_pow]
  cases h : b.testBit (7 - r) <;> simp [h]

/-- `get_color_unchecked` in terms of the bit of the backing data at
the linear index. -/
theorem get_color_unchecked_eq_testBit (s : Stamp) (x y : Nat) :
    s.get_color_unchecked x y =
      (if (s.data.get_unchecked ((y * s.width + x) / 8)).testBit
          (7 - (y * s.width + x) % 8) then Color.White else Color.Black) := by
  unfold Stamp.get_color_unchecked
  have h8 : (y * s.width + x) % 8 < 8 := Nat.mod_lt _ (by omega)
  rw [if_congr (mask_bit_iff _ _ h8) rfl rfl]

/-- A linear index built from in-bounds coordinates is below the pixel
count. -/
theorem linear_index_lt (w h x y : Nat) (hx : x < w) (hy : y < h) :
    y * w + x < w * h := by
  calc y * w + x < y * w + w := by omega
    _ = (y + 1) * w := by ring
    _ ≤ h * w := Nat.mul_le_mul_right w hy
    _ = w * h := Nat.mul_comm h w

/-- Closed form of `Pixels.nth` for an arbitrary cursor position. -/
theorem Pixels.nth_closed (s : Stamp) (c k : Nat) :
    Pixels.nth { stamp := s, cursor := c } k =
      if c + k < s.pixel_count then
        some ((c + k) % s.width, (c + k) / s.width,
          s.get_color_unchecked ((c + k) % s.width) ((c + k) / s.width))
      else none := by
  induction k generalizing c with
  | zero =>
    simp only [Pixels.nth, Pixels.next]
    by_cases hc : c < s.pixel_count
    · simp [hc]
    · simp [hc]
  | succ k ih =>
    simp only [Pixels.nth, Pixels.next]
    by_cases hc : c < s.pixel_count
    · simp only [hc, if_true]
      rw [ih (c + 1)]
      have : c + 1 + k = c + (k + 1) := by omega
      rw [this]
    · simp only [hc, if_false]
      rw [ih c]
      have h1 : ¬ (c + k < s.pixel_count) := by
        simp [Stamp.pixel_count] at hc ⊢; omega
      have h2 : ¬ (c + (k + 1) < s.pixel_count) := by
        simp [Stamp.pixel_count] at hc ⊢; omega
      simp [h1, h2]

/-! ## Claims -/

/-- C1: for every Stamp and every in-bounds coordinate, the pixel
lookup is determined by the linear index `idx = y * width + x`: White
iff bit `7 - (idx mod 8)` of byte `idx / 8` of the backing data is
nonzero, Black otherwise; `get_color_checked` and `get_color` return
that same color. -/
theorem claim_C1 (s : Stamp) (x y : Nat) (hx : x < s.width) (hy : y < s.height) :
    s.get_color_unchecked x y =
      (if (s.data.get_unchecked ((y * s.width + x) / 8)).testBit
          (7 - (y * s.width + x) % 8) then Color.White else Color.Black) ∧
    s.get_color_checked x y = some (s.get_color_unchecked x y) ∧
    s.get_color x y = Except.ok (s.get_color_unchecked x y) := by
  have hb : s.is_within_bounds x y = true := by
    simp [Stamp.is_within_bounds, hx, hy]
  refine ⟨get_color_unchecked_eq_testBit s x y, ?_, ?_⟩
  · simp [Stamp.get_color_checked, hb]
  · simp [Stamp.get_color, Stamp.get_color_checked, hb, optionExpect]

/-- Witness for C1 at the 3×3 checkerboard, coordinate (2, 2). -/
theorem claim_C1_witness :
    checker.get_color_checked 2 2 = some (checker.get_color_unchecked 2 2) :=
  (claim_C1 checker 2 2 (by decide) (by decide)).2.1

/-- C2: `get_color_checked` is present exactly on in-bounds
coordinates, absent exactly on out-of-bounds ones, and any present
color equals the unchecked lookup. -/
theorem claim_C2 (s : Stamp) (x y : Nat) :
    (s.is_within_bounds x y = true ↔ ∃ c, s.get_color_checked x y = some c) ∧
    (s.is_within_bounds x y = false ↔ s.get_color_checked x y = none) ∧
    (∀ c, s.get_color_checked x y = some c → c = s.get_color_unchecked x y) := by
  by_cases hb : s.is_within_bounds x y = true
  · refine ⟨?_, ?_, ?_⟩
    · simp [Stamp.get_color_checked, hb]
    · simp [Stamp.get_color_checked, hb]
    · intro c hc
      simp [Stamp.get_color_checked, hb] at hc
      exact hc.symm
  · have hb' : s.is_within_bounds x y = false := by
      cases h : s.is_within_bounds x y
      · rfl
      · exact absurd h hb
    refine ⟨?_, ?_, ?_⟩
    · simp [Stamp.get_color_checked, hb']
    · simp [Stamp.get_color_checked, hb']
    · intro c hc
      simp [Stamp.get_color_checked, hb'] at hc

/-- Witness for C2 at the 3×3 checkerboard, coordinate (0, 0). -/
theorem claim_C2_witness :
    Color.White = checker.get_color_unchecked 0 0 :=
  (claim_C2 checker 0 0).2.2 Color.White (by decide)

/-- C3 counterexample: at the out-of-bounds coordinate (3, 0) of a
3×3 stamp, `get_color` panics with the empty message (the source calls
`.expect("")`), and the empty message does not identify the
operation. -/
theorem claim_C3_counterexample :
    checker.get_color 3 0 = Except.error "" ∧ ¬ identifiesOperation "" := by
  constructor
  · rfl
  · simp [identifiesOperation]

/-- C3 (amended): `get_color` returns the same color as
`get_color_checked` when the coordinate is in bounds, and when the
coordinate is out of bounds it panics — with an empty message, which
does not identify the operation. -/
theorem claim_C3_amended (s : Stamp) (x y : Nat) :
    (s.is_within_bounds x y = true →
      s.get_color x y = Except.ok (s.get_color_unchecked x y) ∧
      s.get_color_checked x y = some (s.get_color_unchecked x y)) ∧
    (s.is_within_bounds x y = false →
      s.get_color x y = Except.error "" ∧ ¬ identifiesOperation "") := by
  constructor
  · intro hb
    constructor
    · simp [Stamp.get_color, Stamp.get_color_checked, hb, optionExpect]
    · simp [Stamp.get_color_checked, hb]
  · intro hb
    constructor
    · simp [Stamp.get_color, Stamp.get_color_checked, hb, optionExpect]
    · simp [identifiesOperation]

/-- Witness for the amended C3 at the checkerboard, out-of-bounds
coordinate (3, 0). -/
theorem claim_C3_amended_witness :
    checker.get_color 3 0 = Except.error "" ∧ ¬ identifiesOperation "" :=
  (claim_C3_amended checker 3 0).2 (by decide)

/-- C4: `pixels()` emits exactly `W*H` items — for every `k` below the
pixel count the k-th item is
`(k mod W, k / W, get_color_unchecked(k mod W, k / W))` — and for every
`k` at or past the pixel count it produces nothing (the iterator is
exhausted and remains exhausted). -/
theorem claim_C4 (s : Stamp) (k : Nat) :
    (k < s.pixel_count →
      s.pixels.nth k = some (k % s.width, k / s.width,
        s.get_color_unchecked (k % s.width) (k / s.width))) ∧
    (s.pixel_count ≤ k → s.pixels.nth k = none) := by
  have h := Pixels.nth_closed s 0 k
  simp only [Nat.zero_add] at h
  constructor
  · intro hk
    rw [Stamp.pixels, h, if_pos hk]
  · intro hk
    rw [Stamp.pixels, h, if_neg (by omega)]

/-- Witness for C4 at the 3×3 checkerboard: item 5 is pixel (2, 1),
and after the 9 items the iterator stays exhausted (item 9 is none). -/
theorem claim_C4_witness :
    checker.pixels.nth 5 = some (2, 1, checker.get_color_unchecked 2 1) ∧
    checker.pixels.nth 9 = none :=
  ⟨(claim_C4 checker 5).1 (by decide), (claim_C4 checker 9).2 (by decide)⟩

/-- C5: two Stamps of equal dimensions whose backing data agrees on
every bit with linear index below `W*H` (trailing padding bits may
differ) are indistinguishable through every public operation. -/
theorem claim_C5 (s₁ s₂ : Stamp)
    (hw : s₁.width = s₂.width) (hh : s₁.height = s₂.height)
    (hbits : ∀ k, k < s₁.width * s₁.height →
      (s₁.data.get_unchecked (k / 8)).testBit (7 - k % 8) =
      (s₂.data.get_unchecked (k / 8)).testBit (7 - k % 8)) :
    s₁.size = s₂.size ∧
    s₁.pixel_count = s₂.pixel_count ∧
    (∀ x y, s₁.is_within_bounds x y = s₂.is_within_bounds x y) ∧
    (∀ x y, x < s₁.width → y < s₁.height →
      s₁.get_color_unchecked x y = s₂.get_color_unchecked x y) ∧
    (∀ x y, s₁.get_color_checked x y = s₂.get_color_checked x y) ∧
    (∀ x y, s₁.get_color x y = s₂.get_color x y) ∧
    (∀ k, s₁.pixels.nth k = s₂.pixels.nth k) := by
  have hcount : s₁.pixel_count = s₂.pixel_count := by
    simp [Stamp.pixel_count, hw, hh]
  have hbounds : ∀ x y, s₁.is_within_bounds x y = s₂.is_within_bounds x y := by
    intro x y
    simp [Stamp.is_within_bounds, hw, hh]
  have huncheck : ∀ x y, x < s₁.width → y < s₁.height →
      s₁.get_color_unchecked x y = s₂.get_color_unchecked x y := by
    intro x y hx hy
    rw [get_color_unchecked_eq_testBit, get_color_unchecked_eq_testBit, ← hw,
      hbits (y * s₁.width + x) (linear_index_lt _ _ _ _ hx hy)]
  have hcheck : ∀ x y, s₁.get_color_checked x y = s₂.get_color_checked x y := by
    intro x y
    by_cases hb : s₁.is_within_bounds x y = true
    · have hb₂ : s₂.is_within_bounds x y = true := by rw [← hbounds]; exact hb
      have hx : x < s₁.width := by
        simp [Stamp.is_within_bounds] at hb; exact hb.1
      have hy : y < s₁.height := by
        simp [Stamp.is_within_bounds] at hb; exact hb.2
      simp [Stamp.get_color_checked, hb, hb₂, huncheck x y hx hy]
    · have hb' : s₁.is_within_bounds x y = false := by
        cases h : s₁.is_within_bounds x y
        · rfl
        · exact absurd h hb
      have hb₂ : s₂.is_within_bounds x y = false := by rw [← hbounds]; exact hb'
      simp [Stamp.get_color_checked, hb', hb₂]
  refine ⟨by simp [Stamp.size, hw, hh], hcount, hbounds, huncheck, hcheck, ?_, ?_⟩
  · intro x y
    simp [Stamp.get_color, hcheck x y]
  · intro k
    rw [Stamp.pixels, Stamp.pixels, Pixels.nth_closed, Pixels.nth_closed]
    simp only [Nat.zero_add, ← hcount, ← hw]
    by_cases hk : k < s₁.pixel_count
    · have hwpos : 0 < s₁.width := by
        rcases Nat.eq_zero_or_pos s₁.width with h0 | h0
        · rw [Stamp.pixel_count, h0] at hk; omega
        · exact h0
      have hx : k % s₁.width < s₁.width := Nat.mod_lt _ hwpos
      have hy : k / s₁.width < s₁.height := by
        rw [Nat.div_lt_iff_lt_mul hwpos]
        rw [Stamp.pixel_count, Nat.mul_comm] at hk
        exact hk
      rw [if_pos hk, if_pos hk, huncheck _ _ hx hy]
    · rw [if_neg hk, if_neg hk]

/-- Witness for C5: the S6 pair — checkerboard with zero padding bits
vs. checkerboard with one padding bits — agrees at `get_color_checked
(2, 2)`. -/
theorem claim_C5_witness :
    checker.get_color_checked 2 2 = checkerPadded.get_color_checked 2 2 :=
  (claim_C5 checker checkerPadded rfl rfl (by decide)).2.2.2.2.1 2 2

/-- C6: when the backing array holds at least `ceil(W*H/8)` bytes and
the coordinate is in bounds, the byte index `(y*W + x) / 8` computed by
`get_color_unchecked` is below `ceil(W*H/8)`, the access stays inside
the array, and the fetch hits a real element (the out-of-bounds default
of the model is unreachable). -/
theorem claim_C6 (s : Stamp) (x y : Nat)
    (hlen : (s.width * s.height + 7) / 8 ≤ s.data.bytes.length)
    (hx : x < s.width) (hy : y < s.height) :
    (y * s.width + x) / 8 < (s.width * s.height + 7) / 8 ∧
    s.data.bytes[(y * s.width + x) / 8]? =
      some (s.data.get_unchecked ((y * s.width + x) / 8)) := by
  have hidx : y * s.width + x < s.width * s.height :=
    linear_index_lt _ _ _ _ hx hy
  have hceil : (y * s.width + x) / 8 < (s.width * s.height + 7) / 8 := by
    omega
  have hlt : (y * s.width + x) / 8 < s.data.bytes.length := by omega
  refine ⟨hceil, ?_⟩
  rw [Data.get_unchecked, List.getD_eq_getElem?_getD,
    List.getElem?_eq_getElem hlt]
  rfl

/-- Witness for C6 at the 3×3 checkerboard, coordinate (2, 2): the
byte index 1 is below `ceil(9/8) = 2`. -/
theorem claim_C6_witness :
    (2 * checker.width + 2) / 8 < (checker.width * checker.height + 7) / 8 ∧
    checker.data.bytes[(2 * checker.width + 2) / 8]? =
      some (checker.data.get_unchecked ((2 * checker.width + 2) / 8)) :=
  claim_C6 checker 2 2 (by decide) (by decide) (by decide)

/-- C7: `is_within_bounds(x, y)` returns true iff `x < width` and
`y < height`. -/
theorem claim_C7 (s : Stamp) (x y : Nat) :
    s.is_within_bounds x y = true ↔ (x < s.width ∧ y < s.height) := by
  simp [Stamp.is_within_bounds]

/-- C8: `size()` is the pair of `width()` and `height()`, and
`pixel_count()` is their product. -/
theorem claim_C8 (s : Stamp) :
    s.size = [s.width, s.height] ∧ s.pixel_count = s.width * s.height :=
  ⟨rfl, rfl⟩

/-- C9: on a zero-area Stamp, every coordinate is out of bounds, the
checked getter is `none` for every backing data (so the data is never
read), and `get_color` panics everywhere. -/
theorem claim_C9 (s : Stamp) (h0 : s.width = 0 ∨ s.height = 0) (x y : Nat) :
    s.is_within_bounds x y = false ∧
    s.get_color_checked x y = none ∧
    (∀ d, (Stamp.mk s.width s.height d).get_color_checked x y = none) ∧
    s.get_color x y = Except.error "" := by
  have hb : s.is_within_bounds x y = false := by
    rcases h0 with h | h <;> simp [Stamp.is_within_bounds, h]
  refine ⟨hb, ?_, ?_, ?_⟩
  · simp [Stamp.get_color_checked, hb]
  · intro d
    have hb' : (Stamp.mk s.width s.height d).is_within_bounds x y = false := by
      rcases h0 with h | h <;> simp [Stamp.is_within_bounds, h]
    simp [Stamp.get_color_checked, hb']
  · simp [Stamp.get_color, Stamp.get_color_checked, hb, optionExpect]

/-- Witness for C9 at the 0×5 stamp, coordinate (0, 0). -/
theorem claim_C9_witness :
    zeroWidth.is_within_bounds 0 0 = false ∧
    zeroWidth.get_color_checked 0 0 = none ∧
    (∀ d, (Stamp.mk zeroWidth.width zeroWidth.height d).get_color_checked 0 0 = none) ∧
    zeroWidth.get_color 0 0 = Except.error "" :=
  claim_C9 zeroWidth (Or.inl rfl) 0 0

/-- C10: `from_raw` stores its arguments verbatim, and the dimension
accessors and bounds test never read the backing data: their results
coincide for any two backing arrays. -/
theorem claim_C10 (w h : Nat) (d d' : List Nat) (x y : Nat) :
    (Stamp.from_raw w h d).width = w ∧
    (Stamp.from_raw w h d).height = h ∧
    (Stamp.from_raw w h d).size = [w, h] ∧
    (Stamp.from_raw w h d).pixel_count = w * h ∧
    (Stamp.from_raw w h d).size = (Stamp.from_raw w h d').size ∧
    (Stamp.from_raw w h d).pixel_count = (Stamp.from_raw w h d').pixel_count ∧
    (Stamp.from_raw w h d).is_within_bounds x y
      = (Stamp.from_raw w h d').is_within_bounds x y :=
  ⟨rfl, rfl, rfl, rfl, rfl, rfl, rfl⟩
